import Mathlib

/-!
Shallow embedding of the WebRTC session hook of the
video-medical-consultation repository (`src/hooks/useWebRTC.ts`).

The hook keeps its session state in a collection of mutable refs
(`peerConnection`, `pendingCandidates`, `makingOffer`, `remotePeerId`,
timer handles, media stream refs, ...).  We model that state as one
record `HookState` and each handler of the hook as a pure transition
function on it.  Media tracks are mutable objects shared between
streams and RTP senders, so they live in a track store (an association
list from track id to the track's mutable fields) and streams/senders
hold track ids.  Session descriptions and ICE candidates are opaque
payloads, modelled as natural numbers.  Timers are modelled by a
pending flag plus, where a claim needs it, the scheduled delay and
action returned by the transition.
-/

namespace WebRTC

/-- Kind of a media track (`track.kind`). -/
inductive TrackKind where
  | audio
  | video
  deriving Repr, DecidableEq

/-- The mutable fields of a `MediaStreamTrack`: `enabled` (mute flag)
and whether `stop()` has been called on it. -/
structure TrackInfo where
  kind : TrackKind
  enabled : Bool
  stopped : Bool
  deriving Repr, DecidableEq

/-- Track object identity. -/
abbrev TrackId := Nat

/-- The heap of live track objects: id to mutable track fields. -/
abbrev TrackStore := List (TrackId × TrackInfo)

/-- Look a track object up by id. -/
def lookupTrack (ts : TrackStore) (i : TrackId) : Option TrackInfo :=
  match ts with
  | [] => none
  | (j, t) :: rest => if j = i then some t else lookupTrack rest i

/-- Mutate the track object with id `i` in place. -/
def updateTrack (ts : TrackStore) (i : TrackId) (f : TrackInfo → TrackInfo) : TrackStore :=
  match ts with
  | [] => []
  | (j, t) :: rest => if j = i then (j, f t) :: rest else (j, t) :: updateTrack rest i f

theorem lookupTrack_updateTrack_self (ts : TrackStore) (i : TrackId) (f : TrackInfo → TrackInfo) :
    lookupTrack (updateTrack ts i f) i = (lookupTrack ts i).map f := by
  induction ts with
  | nil => rfl
  | cons hd rest ih =>
    obtain ⟨j, t⟩ := hd
    by_cases h : j = i
    · simp [lookupTrack, updateTrack, h]
    · simp [lookupTrack, updateTrack, h, ih]

theorem lookupTrack_updateTrack_ne (ts : TrackStore) (i j : TrackId) (f : TrackInfo → TrackInfo)
    (h : i ≠ j) : lookupTrack (updateTrack ts i f) j = lookupTrack ts j := by
  induction ts with
  | nil => rfl
  | cons hd rest ih =>
    obtain ⟨k, t⟩ := hd
    by_cases hk : k = i
    · subst hk
      simp [lookupTrack, updateTrack, h]
    · simp [lookupTrack, updateTrack, hk, ih]

/-- Model of `track.kind` looked up through the store. -/
def kindOf (ts : TrackStore) (i : TrackId) : Option TrackKind :=
  (lookupTrack ts i).map TrackInfo.kind

/-- Model of `stream.getVideoTracks()` on a stream holding ids `ids`. -/
def getVideoTracks (ts : TrackStore) (ids : List TrackId) : List TrackId :=
  ids.filter (fun i => kindOf ts i == some TrackKind.video)

/-- Model of `stream.getAudioTracks()` on a stream holding ids `ids`. -/
def getAudioTracks (ts : TrackStore) (ids : List TrackId) : List TrackId :=
  ids.filter (fun i => kindOf ts i == some TrackKind.audio)

/-- Model of `track.stop()`: set the stopped flag. -/
def stopTrack (t : TrackInfo) : TrackInfo :=
  { t with stopped := true }

/-- Model of `stream.getTracks().forEach(track => track.stop())`. -/
def stopTracksList (ts : TrackStore) (ids : List TrackId) : TrackStore :=
  ids.foldl (fun acc i => updateTrack acc i stopTrack) ts

/-- Whether the track with id `i` is stopped (vacuously true for an id
that denotes no live track). -/
def stoppedAt (ts : TrackStore) (i : TrackId) : Bool :=
  match lookupTrack ts i with
  | some t => t.stopped
  | none => true

theorem stoppedAt_updateTrack_stop_self (ts : TrackStore) (i : TrackId) :
    stoppedAt (updateTrack ts i stopTrack) i = true := by
  unfold stoppedAt
  rw [lookupTrack_updateTrack_self]
  cases lookupTrack ts i <;> simp [stopTrack]

theorem stoppedAt_updateTrack_stop_mono (ts : TrackStore) (i j : TrackId)
    (h : stoppedAt ts i = true) : stoppedAt (updateTrack ts j stopTrack) i = true := by
  by_cases hij : j = i
  · subst hij
    exact stoppedAt_updateTrack_stop_self ts j
  · unfold stoppedAt
    rw [lookupTrack_updateTrack_ne ts j i stopTrack hij]
    exact h

theorem stoppedAt_stopTracksList_mono (ids : List TrackId) (ts : TrackStore) (i : TrackId)
    (h : stoppedAt ts i = true) : stoppedAt (stopTracksList ts ids) i = true := by
  induction ids generalizing ts with
  | nil => exact h
  | cons j rest ih =>
    exact ih (updateTrack ts j stopTrack) (stoppedAt_updateTrack_stop_mono ts i j h)

theorem stoppedAt_stopTracksList_mem (ids : List TrackId) (ts : TrackStore) (i : TrackId)
    (h : i ∈ ids) : stoppedAt (stopTracksList ts ids) i = true := by
  induction ids generalizing ts with
  | nil => cases h
  | cons j rest ih =>
    rcases List.mem_cons.mp h with h' | h'
    · subst h'
      exact stoppedAt_stopTracksList_mono rest (updateTrack ts i stopTrack) i
        (stoppedAt_updateTrack_stop_self ts i)
    · exact ih (updateTrack ts j stopTrack) h'

/-- Model of `RTCPeerConnection.signalingState` (the states this hook reaches). -/
inductive SigState where
  | stable
  | haveLocalOffer
  | haveRemoteOffer
  deriving Repr, DecidableEq

/-- Model of `RTCPeerConnection.connectionState`. -/
inductive ConnState where
  | new
  | connecting
  | connected
  | disconnected
  | failed
  | closed
  deriving Repr, DecidableEq

/-- Model of `RTCPeerConnection.iceConnectionState`. -/
inductive IceState where
  | new
  | checking
  | connected
  | completed
  | disconnected
  | failed
  | closed
  deriving Repr, DecidableEq

/-- A signaling message sent by the hook over the Supabase channel
(only the kinds the modelled handlers emit). -/
inductive OutMsg where
  | offerMsg (sdp : Nat)
  | answerMsg (sdp : Nat)
  deriving Repr, DecidableEq

/-- The relevant mutable state of an `RTCPeerConnection`: signaling
state, the two descriptions, the candidates handed to the transport
via `addIceCandidate` (in application order), and the RTP senders
(`getSenders()`, each holding the id of its current track or null). -/
structure PCState where
  signalingState : SigState
  remoteDesc : Option Nat
  localDesc : Option Nat
  appliedCandidates : List Nat
  senders : List (Option TrackId)
  deriving Repr, DecidableEq

/-- Model of `createPeerConnection()`: a fresh connection (the ICE server
configuration carries no state we model). -/
def createPeerConnection : PCState :=
  { signalingState := SigState.stable
    remoteDesc := none
    localDesc := none
    appliedCandidates := []
    senders := [] }

/-- The mutable refs and React state of `useWebRTC`, gathered into one
record.  Timers are modelled by their pending flags
(`reconnectTimeout.current !== null`, `disconnectTimeout.current !==
null`, `statsInterval.current !== null`); `channelOpen` models
`channel.current !== null`; `sent` accumulates the signaling messages
the hook sends. -/
structure HookState where
  tracks : TrackStore
  localStream : Option (List TrackId)
  remoteStreamSet : Bool
  connectionState : ConnState
  iceConnectionState : IceState
  isScreenSharing : Bool
  remoteLocation : Option Nat
  pc : Option PCState
  channelOpen : Bool
  pendingCandidates : List Nat
  cameraStream : Option (List TrackId)
  screenStream : Option (List TrackId)
  statsIntervalActive : Bool
  isInitialized : Bool
  makingOffer : Bool
  ignoreOffer : Bool
  receivedTracks : List Nat
  reconnectAttempts : Nat
  reconnectTimeoutPending : Bool
  remotePeerId : Option Nat
  disconnectTimeoutPending : Bool
  sent : List OutMsg
  deriving Repr, DecidableEq

/-- Model of `maxReconnectAttempts` (source line 49). -/
def maxReconnectAttempts : Nat := 3

/-- An action scheduled with `setTimeout` by the connection-state
handler, together with what the callback does.  `restartIceSamePC`
calls `pc.restartIce()` on the existing connection — no new
`RTCPeerConnection` is allocated by any reconnect path. -/
inductive TimerAction where
  | restartIceSamePC
  | restartIceIfStillDisconnected
  | evictRemotePeer
  deriving Repr, DecidableEq

/-- A scheduled timer: delay in milliseconds and the callback's effect. -/
structure Sched where
  delay : Nat
  action : TimerAction
  deriving Repr, DecidableEq

/-- Model of `pc.onconnectionstatechange` (source lines 94-165), as a function
of the new connection state.  Returns the updated hook state and the
timers the handler scheduled. -/
def onConnectionStateChange (cs : ConnState) (st : HookState) : HookState × List Sched :=
  let st := { st with connectionState := cs }
  let st :=
    if cs = ConnState.connected then
      { st with reconnectAttempts := 0, reconnectTimeoutPending := false }
    else st
  let (st, scheds) :=
    if cs = ConnState.failed then
      if st.reconnectAttempts < maxReconnectAttempts then
        let n := st.reconnectAttempts + 1
        ({ st with reconnectAttempts := n, reconnectTimeoutPending := true },
         [⟨min (1000 * 2 ^ (n - 1)) 5000, TimerAction.restartIceSamePC⟩])
      else (st, [])
    else (st, ([] : List Sched))
  let (st, scheds) :=
    if cs = ConnState.disconnected then
      let (st, s1) :=
        if !st.reconnectTimeoutPending then
          ({ st with reconnectTimeoutPending := true },
           [⟨3000, TimerAction.restartIceIfStillDisconnected⟩])
        else (st, ([] : List Sched))
      let (st, s2) :=
        if !st.disconnectTimeoutPending then
          ({ st with disconnectTimeoutPending := true },
           [⟨10000, TimerAction.evictRemotePeer⟩])
        else (st, ([] : List Sched))
      (st, scheds ++ s1 ++ s2)
    else (st, scheds)
  let st :=
    if cs = ConnState.connected && st.disconnectTimeoutPending then
      { st with disconnectTimeoutPending := false }
    else st
  (st, scheds)

/-- Model of `createAnswer()` for a received offer: the answer description
(payload contents are opaque; we index the answer by its offer). -/
def answerFor (offer : Nat) : Nat := offer

/-- The observable steps of `createOffer` (source lines 413-493):
the description is produced by `pc.createOffer` (the SDP munging for
bandwidth and codec order only rewrites the SDP text), then applied
with `setLocalDescription`, then sent over the channel. -/
inductive CStep where
  | createdDesc
  | setLocalDesc
  | sentOffer
  deriving Repr, DecidableEq

/-- Model of `createOffer` (source lines 413-493).  `o` stands for the SDP the
browser generates (after the bandwidth/codec rewriting, which touches
only the SDP text).  Besides the resulting state, the model returns
the trace of steps, each paired with the value of the `makingOffer`
ref at that moment; the source never assigns `makingOffer` inside
`createOffer`. -/
def createOffer (o : Nat) (st : HookState) : HookState × List (CStep × Bool) :=
  match st.pc with
  | none => (st, [])
  | some p =>
    let tr := [(CStep.createdDesc, st.makingOffer)]
    let p := { p with localDesc := some o, signalingState := SigState.haveLocalOffer }
    let tr := tr ++ [(CStep.setLocalDesc, st.makingOffer)]
    let st := { st with pc := some p }
    if st.channelOpen then
      ({ st with sent := st.sent ++ [OutMsg.offerMsg o] }, tr ++ [(CStep.sentOffer, st.makingOffer)])
    else (st, tr)

/-- The offer-collision test of `handleOffer` (source line 507):
`pc.signalingState !== 'stable' || makingOffer.current`. -/
def offerCollision (p : PCState) (st : HookState) : Bool :=
  (p.signalingState != SigState.stable) || st.makingOffer

/-- Model of `handleOffer` (source lines 496-546): create the peer connection
if absent, detect a collision (perfect-negotiation check), and on
collision record it in `ignoreOffer` and return; otherwise apply the
remote description, flush the pending ICE candidate queue to the
transport, create an answer, apply it locally and send it. -/
def handleOffer (o : Nat) (st : HookState) : HookState :=
  let p := match st.pc with
    | some p => p
    | none => createPeerConnection
  let st := { st with pc := some p }
  let collision := offerCollision p st
  let st := { st with ignoreOffer := collision }
  if collision then st
  else
    let p := { p with remoteDesc := some o, signalingState := SigState.haveRemoteOffer }
    let (p, pending) :=
      if st.pendingCandidates.length > 0 then
        ({ p with appliedCandidates := p.appliedCandidates ++ st.pendingCandidates },
         ([] : List Nat))
      else (p, st.pendingCandidates)
    let p := { p with localDesc := some (answerFor o), signalingState := SigState.stable }
    let st := { st with pc := some p, pendingCandidates := pending }
    if st.channelOpen then { st with sent := st.sent ++ [OutMsg.answerMsg (answerFor o)] }
    else st

/-- Model of `handleAnswer` (source lines 549-574): apply the remote
description and flush the pending ICE candidate queue.  When no local
offer is outstanding (the signaling state is not `have-local-offer`),
`setRemoteDescription(answer)` throws, the `catch` only logs, and
nothing is applied or flushed — the handler is a no-op then. -/
def handleAnswer (a : Nat) (st : HookState) : HookState :=
  match st.pc with
  | none => st
  | some p =>
    if p.signalingState = SigState.haveLocalOffer then
      let p := { p with remoteDesc := some a, signalingState := SigState.stable }
      let (p, pending) :=
        if st.pendingCandidates.length > 0 then
          ({ p with appliedCandidates := p.appliedCandidates ++ st.pendingCandidates },
           ([] : List Nat))
        else (p, st.pendingCandidates)
      { st with pc := some p, pendingCandidates := pending }
    else st

/-- Model of `handleIceCandidate` (source lines 577-605): with no peer
connection the handler only logs and returns; with a remote
description set the candidate is applied immediately; otherwise it is
appended to `pendingCandidates`. -/
def handleIceCandidate (c : Nat) (st : HookState) : HookState :=
  match st.pc with
  | none => st
  | some p =>
    if p.remoteDesc.isSome then
      { st with pc := some { p with appliedCandidates := p.appliedCandidates ++ [c] } }
    else
      { st with pendingCandidates := st.pendingCandidates ++ [c] }

/-- Model of `toggleAudio` (source lines 608-618): flip `enabled` on the first
audio track of the local stream and return the new value. -/
def toggleAudio (st : HookState) : HookState × Bool :=
  match st.localStream with
  | none => (st, false)
  | some ls =>
    match (getAudioTracks st.tracks ls).head? with
    | none => (st, false)
    | some tid =>
      match lookupTrack st.tracks tid with
      | none => (st, false)
      | some t =>
        ({ st with tracks := updateTrack st.tracks tid (fun u => { u with enabled := !u.enabled }) },
         !t.enabled)

/-- Model of `toggleVideo` (source lines 621-631): flip `enabled` on the first
video track of the local stream and return the new value. -/
def toggleVideo (st : HookState) : HookState × Bool :=
  match st.localStream with
  | none => (st, false)
  | some ls =>
    match (getVideoTracks st.tracks ls).head? with
    | none => (st, false)
    | some tid =>
      match lookupTrack st.tracks tid with
      | none => (st, false)
      | some t =>
        ({ st with tracks := updateTrack st.tracks tid (fun u => { u with enabled := !u.enabled }) },
         !t.enabled)

/-- The fresh video track delivered by `getDisplayMedia`. -/
def screenTrackInfo : TrackInfo :=
  { kind := TrackKind.video, enabled := true, stopped := false }

/-- Model of `getSenders().find(s => s.track?.kind === 'video')` followed by
`sender.replaceTrack(newT)`: replace the track of the first sender
currently holding a video track; `none` when no video sender exists. -/
def replaceFirstVideoSender (ts : TrackStore) (senders : List (Option TrackId))
    (newT : TrackId) : Option (List (Option TrackId)) :=
  match senders with
  | [] => none
  | s :: rest =>
    if (match s with
        | some i => kindOf ts i == some TrackKind.video
        | none => false) then
      some (some newT :: rest)
    else
      (replaceFirstVideoSender ts rest newT).map (fun l => s :: l)

/-- Model of `startScreenShare` (source lines 634-695).  `sid` is the id of the
fresh screen-capture video track returned by `getDisplayMedia`.
Returns the updated state and the boolean result of the call. -/
def startScreenShare (sid : TrackId) (st : HookState) : HookState × Bool :=
  match st.pc, st.cameraStream with
  | some p, some _ =>
    let tracks := (sid, screenTrackInfo) :: st.tracks
    let displayIds := [sid]
    match (getVideoTracks tracks displayIds).head? with
    | none => ({ st with tracks := tracks }, false)
    | some screenTrack =>
      match replaceFirstVideoSender tracks p.senders screenTrack with
      | none =>
        ({ st with tracks := stopTracksList tracks displayIds }, false)
      | some senders =>
        let p := { p with senders := senders }
        let audioHead := match st.localStream with
          | some ls => (getAudioTracks tracks ls).head?
          | none => none
        let newLocal := match audioHead with
          | some a => [screenTrack, a]
          | none => [screenTrack]
        ({ st with tracks := tracks, pc := some p, localStream := some newLocal,
                   screenStream := some displayIds, isScreenSharing := true }, true)
  | _, _ => (st, false)

/-- Model of `stopScreenShare` (source lines 698-742): stop the screen tracks,
re-enable the camera video track, substitute it back into the video
sender, and restore the camera stream as the local stream. -/
def stopScreenShare (st : HookState) : HookState :=
  match st.pc, st.cameraStream with
  | some p, some cam =>
    let tracks := match st.screenStream with
      | some ids => stopTracksList st.tracks ids
      | none => st.tracks
    match (getVideoTracks tracks cam).head? with
    | none => { st with tracks := tracks }
    | some camV =>
      let tracks := updateTrack tracks camV (fun t => { t with enabled := true })
      let p := match replaceFirstVideoSender tracks p.senders camV with
        | some senders => { p with senders := senders }
        | none => p
      { st with tracks := tracks, pc := some p, localStream := some cam,
                screenStream := none, isScreenSharing := false }
  | _, _ => st

/-- Quality bucket of a connection-quality sample. -/
inductive Quality where
  | excellent
  | good
  | fair
  | poor
  | connecting
  deriving Repr, DecidableEq

/-- The quality classification inside `monitorConnectionQuality`
(source lines 767-780), as the pure function of the sampled metrics
and the ICE connection state it closes over. -/
def monitorConnectionQuality (ice : IceState) (bitrate packetLoss rtt : ℚ) : Quality :=
  if ice = IceState.checking ∨ ice = IceState.new then Quality.connecting
  else if bitrate > 1000 ∧ packetLoss < 1 ∧ rtt < 150 then Quality.excellent
  else if bitrate > 500 ∧ packetLoss < 3 ∧ rtt < 200 then Quality.good
  else if bitrate > 300 ∧ packetLoss < 5 ∧ rtt < 300 then Quality.fair
  else Quality.poor

/-- Model of `resetPeerConnection` (source lines 807-855): clear the remote
stream and track bookkeeping, clear the pending candidate queue, close
the peer connection, reset the negotiation flags and reconnect
counter, cancel both timers, and — when a local stream exists —
create a fresh peer connection and re-add the local tracks to it. -/
def resetPeerConnection (st : HookState) : HookState :=
  let st := { st with remoteStreamSet := false, receivedTracks := [] }
  let st := { st with pendingCandidates := [] }
  let st := { st with pc := none }
  let st := { st with makingOffer := false, ignoreOffer := false, reconnectAttempts := 0 }
  let st := { st with reconnectTimeoutPending := false, disconnectTimeoutPending := false }
  match st.localStream with
  | some ls => { st with pc := some { createPeerConnection with senders := ls.map some } }
  | none => st

/-- Stop all tracks of an optional stream (`stream.getTracks().forEach(t => t.stop())`). -/
def stopStreamTracks (ts : TrackStore) (s : Option (List TrackId)) : TrackStore :=
  match s with
  | some ids => stopTracksList ts ids
  | none => ts

/-- The ids held by an optional stream. -/
def idsOfOpt (s : Option (List TrackId)) : List TrackId :=
  s.getD []

/-- Model of `cleanup` (source lines 880-944): cancel the reconnect timer,
reset the reconnect counter, cancel the stats interval, stop the
screen, camera and local-stream tracks, close the peer connection,
remove the signaling channel, clear the received-track set and remote
stream, and mark the connection closed.  The source does not touch
`disconnectTimeout`, `pendingCandidates` or `remotePeerId`. -/
def cleanup (st : HookState) : HookState :=
  { st with
    reconnectTimeoutPending := false
    reconnectAttempts := 0
    statsIntervalActive := false
    tracks := stopStreamTracks
      (stopStreamTracks (stopStreamTracks st.tracks st.screenStream) st.cameraStream)
      st.localStream
    screenStream := none
    cameraStream := none
    pc := none
    channelOpen := false
    receivedTracks := []
    remoteStreamSet := false
    localStream := none
    connectionState := ConnState.closed
    iceConnectionState := IceState.closed
    isInitialized := false }

/-- The message types of the signaling schema. -/
inductive MsgType where
  | offer
  | answer
  | iceCandidate
  | ready
  | leave
  | locationInfo
  deriving Repr, DecidableEq

/-- A received signaling message (`{ type, data, from }`); `fromId`
models the `from` field. -/
structure Msg where
  type : MsgType
  data : Nat
  fromId : Nat
  deriving Repr, DecidableEq

/-- Actions observable in a run of the broadcast handler: a full
session reset (`resetPeerConnection()`), and the dispatch of the
message body by the `switch`. -/
inductive HAction where
  | reset
  | dispatched (t : MsgType)
  deriving Repr, DecidableEq

/-- The `webrtc-signal` broadcast handler (source lines 960-1021):
drop own messages; for `ready`/`offer` run the peer-identity check
(reset on a different sender id, or on a repeated `ready` from the
tracked id), record the sender id, cancel the disconnect timer; then
dispatch on the message type (the `switch` has no `leave` case).
Returns the state and the trace of observable actions in order. -/
def onSignal (selfId : Nat) (msg : Msg) (st : HookState) : HookState × List HAction :=
  if msg.fromId = selfId then (st, [])
  else
    let (st, acts) :=
      if msg.type = MsgType.ready ∨ msg.type = MsgType.offer then
        let (st, acts) :=
          match st.remotePeerId with
          | some rid =>
            if rid ≠ msg.fromId then (resetPeerConnection st, [HAction.reset])
            else if msg.type = MsgType.ready then (resetPeerConnection st, [HAction.reset])
            else (st, ([] : List HAction))
          | none => (st, ([] : List HAction))
        let st := { st with remotePeerId := some msg.fromId }
        let st :=
          if st.disconnectTimeoutPending then { st with disconnectTimeoutPending := false }
          else st
        (st, acts)
      else (st, ([] : List HAction))
    match msg.type with
    | MsgType.offer => (handleOffer msg.data st, acts ++ [HAction.dispatched MsgType.offer])
    | MsgType.answer => (handleAnswer msg.data st, acts ++ [HAction.dispatched MsgType.answer])
    | MsgType.iceCandidate =>
      (handleIceCandidate msg.data st, acts ++ [HAction.dispatched MsgType.iceCandidate])
    | MsgType.ready =>
      let st := match st.pc with
        | some p => if p.signalingState = SigState.stable then (createOffer 0 st).1 else st
        | none => st
      (st, acts ++ [HAction.dispatched MsgType.ready])
    | MsgType.locationInfo =>
      ({ st with remoteLocation := some msg.data }, acts ++ [HAction.dispatched MsgType.locationInfo])
    | MsgType.leave => (st, acts)

/-- A concrete idle hook state (no media, no peer connection, channel
subscribed), used to instantiate the closed statements below. -/
def baseState : HookState :=
  { tracks := []
    localStream := none
    remoteStreamSet := false
    connectionState := ConnState.new
    iceConnectionState := IceState.new
    isScreenSharing := false
    remoteLocation := none
    pc := none
    channelOpen := true
    pendingCandidates := []
    cameraStream := none
    screenStream := none
    statsIntervalActive := false
    isInitialized := false
    makingOffer := false
    ignoreOffer := false
    receivedTracks := []
    reconnectAttempts := 0
    reconnectTimeoutPending := false
    remotePeerId := none
    disconnectTimeoutPending := false
    sent := [] }

/-- C1: for every incoming offer handled by `handleOffer`, if the peer
connection's signaling state is not `stable` or the `makingOffer` flag
is set, the offer is ignored — no remote description is applied, no
answer is sent, and the negotiation state (descriptions, candidate
queue, sent messages, flags, peer id, streams) is unchanged;
otherwise the remote description is applied, the pending ICE candidate
queue is flushed to the transport, and exactly one answer is generated
and sent back. -/
theorem handleOffer_spec (st : HookState) (o : Nat) (p : PCState)
    (hpc : st.pc = some p) (hch : st.channelOpen = true) :
    (offerCollision p st = true →
       (handleOffer o st).pc = some p ∧
       (handleOffer o st).pendingCandidates = st.pendingCandidates ∧
       (handleOffer o st).sent = st.sent ∧
       (handleOffer o st).ignoreOffer = true ∧
       (handleOffer o st).makingOffer = st.makingOffer ∧
       (handleOffer o st).remotePeerId = st.remotePeerId ∧
       (handleOffer o st).localStream = st.localStream ∧
       (handleOffer o st).remoteStreamSet = st.remoteStreamSet) ∧
    (offerCollision p st = false →
       (handleOffer o st).pc.map PCState.remoteDesc = some (some o) ∧
       (handleOffer o st).pc.map PCState.appliedCandidates
         = some (p.appliedCandidates ++ st.pendingCandidates) ∧
       (handleOffer o st).pc.map PCState.localDesc = some (some (answerFor o)) ∧
       (handleOffer o st).pendingCandidates = [] ∧
       (handleOffer o st).sent = st.sent ++ [OutMsg.answerMsg (answerFor o)]) := by
  constructor
  · intro hcol
    simp [handleOffer, hpc, offerCollision] at hcol ⊢
    simp [hcol]
  · intro hcol
    simp [offerCollision] at hcol
    by_cases hlen : st.pendingCandidates.length > 0
    · simp [handleOffer, hpc, offerCollision, hcol, hlen, hch]
    · have hnil : st.pendingCandidates = [] := by
        cases h : st.pendingCandidates with
        | nil => rfl
        | cons a l => rw [h] at hlen; simp at hlen
      simp [handleOffer, hpc, offerCollision, hcol, hlen, hch, hnil]

/-- Concrete non-collision state for the C1 witness: a stable peer
connection with two buffered candidates. -/
def stOffer : HookState :=
  { baseState with pc := some createPeerConnection, pendingCandidates := [4, 5] }

/-- Witness for C1 at a concrete stable state: the buffered candidates
are flushed and exactly one answer is sent. -/
theorem handleOffer_spec_witness :
    (handleOffer 9 stOffer).pc.map PCState.appliedCandidates = some [4, 5] ∧
    (handleOffer 9 stOffer).pendingCandidates = [] ∧
    (handleOffer 9 stOffer).sent = [OutMsg.answerMsg 9] := by
  have h := (handleOffer_spec stOffer 9 createPeerConnection rfl rfl).2 (by decide)
  refine ⟨?_, h.2.2.2.1, ?_⟩
  · have := h.2.1
    simpa [stOffer, baseState, createPeerConnection] using this
  · have := h.2.2.2.2
    simpa [stOffer, baseState] using this

/-- Concrete state with no peer connection for the C2 counterexample. -/
def stNoPc : HookState := baseState

/-- Counterexample to C2 as stated: with no peer connection (so no
remote description is set), `handleIceCandidate` returns without
buffering — the delivered candidate is discarded, not appended to the
pending queue. -/
theorem handleIceCandidate_drop_counterexample :
    handleIceCandidate 7 stNoPc = stNoPc ∧
    ¬ (handleIceCandidate 7 stNoPc).pendingCandidates = stNoPc.pendingCandidates ++ [7] := by
  constructor
  · rfl
  · intro h
    simp [handleIceCandidate, stNoPc, baseState] at h

/-- C2 (amended): for every ICE candidate delivered while a peer
connection exists, if its remote description is unset the candidate is
appended to the pending queue (and not applied), and if a remote
description is set it is applied to the transport immediately; when a
remote description is later applied by a non-colliding `handleOffer`,
or by `handleAnswer` while a local offer is outstanding, every
buffered candidate is applied to the transport exactly once, in
receipt order, and the queue is empty afterward.  (When no peer
connection exists the handler drops the candidate, and `handleAnswer`
with no local offer outstanding is a no-op that neither applies nor
discards the buffered candidates.) -/
theorem handleIceCandidate_buffer_spec :
    (∀ (st : HookState) (c : Nat) (p : PCState), st.pc = some p → p.remoteDesc = none →
       (handleIceCandidate c st).pendingCandidates = st.pendingCandidates ++ [c] ∧
       (handleIceCandidate c st).pc = some p) ∧
    (∀ (st : HookState) (c : Nat) (p : PCState), st.pc = some p → p.remoteDesc ≠ none →
       (handleIceCandidate c st).pc.map PCState.appliedCandidates
         = some (p.appliedCandidates ++ [c]) ∧
       (handleIceCandidate c st).pendingCandidates = st.pendingCandidates) ∧
    (∀ (st : HookState) (o : Nat) (p : PCState), st.pc = some p →
       offerCollision p st = false →
       (handleOffer o st).pc.map PCState.appliedCandidates
         = some (p.appliedCandidates ++ st.pendingCandidates) ∧
       (handleOffer o st).pendingCandidates = []) ∧
    (∀ (st : HookState) (a : Nat) (p : PCState), st.pc = some p →
       p.signalingState = SigState.haveLocalOffer →
       (handleAnswer a st).pc.map PCState.appliedCandidates
         = some (p.appliedCandidates ++ st.pendingCandidates) ∧
       (handleAnswer a st).pendingCandidates = []) ∧
    (∀ (st : HookState) (a : Nat) (p : PCState), st.pc = some p →
       p.signalingState ≠ SigState.haveLocalOffer →
       handleAnswer a st = st) := by
  refine ⟨?_, ?_, ?_, ?_, ?_⟩
  · intro st c p hpc hrd
    simp [handleIceCandidate, hpc, hrd]
  · intro st c p hpc hrd
    have : p.remoteDesc.isSome := Option.isSome_iff_ne_none.mpr hrd
    simp [handleIceCandidate, hpc, this]
  · intro st o p hpc hcol
    simp [offerCollision] at hcol
    by_cases hlen : st.pendingCandidates.length > 0
    · cases hch : st.channelOpen <;>
        simp [handleOffer, hpc, offerCollision, hcol, hlen, hch]
    · have hnil : st.pendingCandidates = [] := by
        cases h : st.pendingCandidates with
        | nil => rfl
        | cons x l => rw [h] at hlen; simp at hlen
      cases hch : st.channelOpen <;>
        simp [handleOffer, hpc, offerCollision, hcol, hlen, hnil, hch]
  · intro st a p hpc hs
    by_cases hlen : st.pendingCandidates.length > 0
    · simp [handleAnswer, hpc, hs, hlen]
    · have hnil : st.pendingCandidates = [] := by
        cases h : st.pendingCandidates with
        | nil => rfl
        | cons x l => rw [h] at hlen; simp at hlen
      simp [handleAnswer, hpc, hs, hlen, hnil]
  · intro st a p hpc hs
    simp [handleAnswer, hpc, hs]

/-- Concrete state with an outstanding local offer (signaling state
`have-local-offer`) and two buffered candidates, for the C2 witness. -/
def stAwaitingAnswer : HookState :=
  { baseState with
    pc := some { createPeerConnection with
      signalingState := SigState.haveLocalOffer, localDesc := some 3 }
    pendingCandidates := [4, 5] }

/-- Witness for the amended C2 at concrete states: a candidate is
buffered while the remote description is unset; `handleAnswer` with a
local offer outstanding flushes the queue in order; `handleAnswer` at
a stable-state connection is a no-op that keeps the buffer. -/
theorem handleIceCandidate_buffer_spec_witness :
    (handleIceCandidate 7 stOffer).pendingCandidates = [4, 5, 7] ∧
    (handleAnswer 9 stAwaitingAnswer).pc.map PCState.appliedCandidates = some [4, 5] ∧
    (handleAnswer 9 stAwaitingAnswer).pendingCandidates = [] ∧
    handleAnswer 9 stOffer = stOffer := by
  refine ⟨?_, ?_, ?_, ?_⟩
  · have := (handleIceCandidate_buffer_spec.1 stOffer 7 createPeerConnection rfl rfl).1
    simpa [stOffer, baseState] using this
  · have := (handleIceCandidate_buffer_spec.2.2.2.1 stAwaitingAnswer 9
      { createPeerConnection with
        signalingState := SigState.haveLocalOffer, localDesc := some 3 } rfl rfl).1
    simpa [stAwaitingAnswer, baseState, createPeerConnection] using this
  · exact (handleIceCandidate_buffer_spec.2.2.2.1 stAwaitingAnswer 9
      { createPeerConnection with
        signalingState := SigState.haveLocalOffer, localDesc := some 3 } rfl rfl).2
  · exact handleIceCandidate_buffer_spec.2.2.2.2 stOffer 9 createPeerConnection rfl
      (by decide)

/-- C3: on a transition to the `failed` connection state, reconnection
attempt `n` (1 ≤ n ≤ 3, i.e. the counter stood at `n - 1`) schedules
exactly one ICE restart on the same peer connection after
`min(1000·2^(n-1), 5000)` milliseconds — 1000, 2000, 4000 ms — and
once the counter has reached 3 a further `failed` transition schedules
nothing. -/
theorem reconnect_backoff_spec (st : HookState) (n : Nat)
    (h1 : 1 ≤ n) (h3 : n ≤ 3) (ha : st.reconnectAttempts = n - 1) :
    (onConnectionStateChange ConnState.failed st).2
      = [⟨min (1000 * 2 ^ (n - 1)) 5000, TimerAction.restartIceSamePC⟩] ∧
    (n = 1 → min (1000 * 2 ^ (n - 1)) 5000 = 1000) ∧
    (n = 2 → min (1000 * 2 ^ (n - 1)) 5000 = 2000) ∧
    (n = 3 → min (1000 * 2 ^ (n - 1)) 5000 = 4000) ∧
    (onConnectionStateChange ConnState.failed st).1.pc = st.pc ∧
    (onConnectionStateChange ConnState.failed st).1.reconnectAttempts = n ∧
    (∀ st2 : HookState, st2.reconnectAttempts ≥ 3 →
       (onConnectionStateChange ConnState.failed st2).2 = []) := by
  have hlt : n - 1 < maxReconnectAttempts := by
    unfold maxReconnectAttempts; omega
  have hsucc : n - 1 + 1 = n := by omega
  refine ⟨?_, ?_, ?_, ?_, ?_, ?_, ?_⟩
  · simp [onConnectionStateChange, ha, hlt]
  · intro h; subst h; decide
  · intro h; subst h; decide
  · intro h; subst h; decide
  · simp [onConnectionStateChange, ha, hlt]
  · simp [onConnectionStateChange, ha, hlt, hsucc]
  · intro st2 h2
    have : ¬ st2.reconnectAttempts < maxReconnectAttempts := by
      unfold maxReconnectAttempts; omega
    simp [onConnectionStateChange, this]

/-- Witness for C3 at concrete states: the three delays in sequence
and silence after the cap. -/
theorem reconnect_backoff_spec_witness :
    (onConnectionStateChange ConnState.failed baseState).2
      = [⟨1000, TimerAction.restartIceSamePC⟩] ∧
    (onConnectionStateChange ConnState.failed { baseState with reconnectAttempts := 1 }).2
      = [⟨2000, TimerAction.restartIceSamePC⟩] ∧
    (onConnectionStateChange ConnState.failed { baseState with reconnectAttempts := 2 }).2
      = [⟨4000, TimerAction.restartIceSamePC⟩] ∧
    (onConnectionStateChange ConnState.failed { baseState with reconnectAttempts := 3 }).2
      = [] := by
  refine ⟨?_, ?_, ?_, ?_⟩
  · have h := reconnect_backoff_spec baseState 1 (by decide) (by decide) rfl
    simpa using h.1
  · have h := reconnect_backoff_spec { baseState with reconnectAttempts := 1 } 2
      (by decide) (by decide) rfl
    simpa using h.1
  · have h := reconnect_backoff_spec { baseState with reconnectAttempts := 2 } 3
      (by decide) (by decide) rfl
    simpa using h.1
  · exact (reconnect_backoff_spec baseState 1 (by decide) (by decide) rfl).2.2.2.2.2.2
      { baseState with reconnectAttempts := 3 } (by decide)

/-- A concrete state with a stable peer connection and an open
channel, from which `createOffer` runs to completion. -/
def stStable : HookState := { baseState with pc := some createPeerConnection }

/-- Counterexample to C4 as stated: running `createOffer` from a
stable state, the local description is produced and applied while
`makingOffer` is `false` (no step of the run observes the flag set),
so the flag is not set for the duration of offer creation. -/
theorem createOffer_flag_counterexample :
    ((createOffer 5 stStable).2.any
       (fun e => e.1 == CStep.setLocalDesc && e.2 == true)) = false ∧
    ((createOffer 5 stStable).2.any (fun e => e.1 == CStep.setLocalDesc)) = true ∧
    (createOffer 5 stStable).1.makingOffer = false := by
  decide

/-- C4 (amended): `createOffer` never modifies the `makingOffer` flag
— the flag keeps its prior value (`false`, since no code path ever
sets it) at every step of offer creation and afterwards — so
`handleOffer`'s collision test effectively depends only on the
signaling state. -/
theorem createOffer_flag_unchanged (st : HookState) (o : Nat) :
    (createOffer o st).1.makingOffer = st.makingOffer ∧
    ((createOffer o st).2.all (fun e => e.2 == st.makingOffer)) = true := by
  cases hpc : st.pc with
  | none => simp [createOffer, hpc]
  | some p =>
    cases hch : st.channelOpen <;> simp [createOffer, hpc, hch]

theorem handleOffer_preserves_peer_fields (o : Nat) (st : HookState) :
    (handleOffer o st).remotePeerId = st.remotePeerId ∧
    (handleOffer o st).disconnectTimeoutPending = st.disconnectTimeoutPending := by
  cases hpc : st.pc <;> simp only [handleOffer, hpc] <;> split_ifs <;> simp

theorem handleAnswer_preserves_peer_fields (a : Nat) (st : HookState) :
    (handleAnswer a st).remotePeerId = st.remotePeerId ∧
    (handleAnswer a st).disconnectTimeoutPending = st.disconnectTimeoutPending := by
  cases hpc : st.pc with
  | none => simp [handleAnswer, hpc]
  | some p =>
    by_cases hs : p.signalingState = SigState.haveLocalOffer
    · by_cases hlen : st.pendingCandidates.length > 0 <;>
        simp [handleAnswer, hpc, hs, hlen]
    · simp [handleAnswer, hpc, hs]

theorem createOffer_preserves_peer_fields (o : Nat) (st : HookState) :
    (createOffer o st).1.remotePeerId = st.remotePeerId ∧
    (createOffer o st).1.disconnectTimeoutPending = st.disconnectTimeoutPending := by
  cases hpc : st.pc with
  | none => simp [createOffer, hpc]
  | some p => cases hch : st.channelOpen <;> simp [createOffer, hpc, hch]

/-- C5: a `ready` from the currently tracked sender id, or a
`ready`/`offer` from a sender id different from a non-null tracked id,
makes the broadcast handler perform exactly one full session reset
before dispatching the message; and a session reset (with a local
stream present) closes and recreates the peer connection, re-attaches
the local tracks as its senders, clears the remote media bookkeeping
and clears the pending ICE candidate queue. -/
theorem peer_rejoin_single_reset (selfId : Nat) (msg : Msg) (st : HookState)
    (hself : msg.fromId ≠ selfId)
    (htrig : (msg.type = MsgType.ready ∧ st.remotePeerId = some msg.fromId) ∨
             ((msg.type = MsgType.ready ∨ msg.type = MsgType.offer) ∧
              ∃ q, st.remotePeerId = some q ∧ q ≠ msg.fromId)) :
    (onSignal selfId msg st).2 = [HAction.reset, HAction.dispatched msg.type] ∧
    ((onSignal selfId msg st).2.count HAction.reset = 1) ∧
    (∀ (s : HookState) (ls : List TrackId), s.localStream = some ls →
       (resetPeerConnection s).pc
         = some { signalingState := SigState.stable, remoteDesc := none, localDesc := none,
                  appliedCandidates := [], senders := ls.map some } ∧
       (resetPeerConnection s).pendingCandidates = [] ∧
       (resetPeerConnection s).remoteStreamSet = false ∧
       (resetPeerConnection s).receivedTracks = []) := by
  obtain ⟨mt, d, f⟩ := msg
  have htrace : (onSignal selfId ⟨mt, d, f⟩ st).2
      = [HAction.reset, HAction.dispatched mt] := by
    rcases htrig with ⟨ht, hrid⟩ | ⟨ht, q, hrid, hne⟩
    · simp only at ht hrid
      subst ht
      simp [onSignal, hself, hrid]
    · rcases ht with ht | ht <;> simp only at ht hrid <;> subst ht <;>
        simp [onSignal, hself, hrid, hne]
  refine ⟨htrace, ?_, ?_⟩
  · rw [htrace]
    have hne : (HAction.dispatched mt == HAction.reset) = false := by
      cases mt <;> rfl
    simp [List.count_cons, hne]
  · intro s ls hls
    simp [resetPeerConnection, hls, createPeerConnection]

/-- Witness for C5: a repeated `ready` from the tracked peer id 2
causes exactly one reset before the dispatch, and a reset with a local
stream rebuilds the peer connection with the local tracks attached. -/
theorem peer_rejoin_single_reset_witness :
    (onSignal 1 ⟨MsgType.ready, 0, 2⟩
        { baseState with remotePeerId := some 2 }).2
      = [HAction.reset, HAction.dispatched MsgType.ready] ∧
    (resetPeerConnection { baseState with localStream := some [0, 1] }).pc
      = some { signalingState := SigState.stable, remoteDesc := none, localDesc := none,
               appliedCandidates := [], senders := [some 0, some 1] } := by
  have h := peer_rejoin_single_reset 1 ⟨MsgType.ready, 0, 2⟩
    { baseState with remotePeerId := some 2 } (by decide) (Or.inl ⟨rfl, rfl⟩)
  exact ⟨h.1, (h.2.2 { baseState with localStream := some [0, 1] } [0, 1] rfl).1⟩

/-- C10: when no remote peer id is tracked, the first `ready` or
`offer` triggers no session reset: the sender id is recorded as the
tracked remote peer id, the pending peer-eviction timer (if any) is
cancelled, and the message is then dispatched normally. -/
theorem first_peer_no_reset (selfId : Nat) (msg : Msg) (st : HookState)
    (hself : msg.fromId ≠ selfId) (hnone : st.remotePeerId = none)
    (htype : msg.type = MsgType.ready ∨ msg.type = MsgType.offer) :
    (onSignal selfId msg st).2 = [HAction.dispatched msg.type] ∧
    (onSignal selfId msg st).1.remotePeerId = some msg.fromId ∧
    (onSignal selfId msg st).1.disconnectTimeoutPending = false := by
  obtain ⟨mt, d, f⟩ := msg
  rcases htype with ht | ht <;> simp only at ht <;> subst ht
  · refine ⟨?_, ?_, ?_⟩ <;>
      · simp only [onSignal, hself, hnone]
        cases hdp : st.disconnectTimeoutPending <;>
          simp [hdp] <;>
          split <;>
          first
            | rfl
            | (split <;>
                simp [createOffer_preserves_peer_fields])
  · refine ⟨?_, ?_, ?_⟩ <;>
      · simp only [onSignal, hself, hnone]
        cases hdp : st.disconnectTimeoutPending <;>
          simp [hdp, handleOffer_preserves_peer_fields]

/-- Witness for C10: the first `offer` from peer 2 on a fresh session
resets nothing, records peer 2 and leaves no eviction timer pending. -/
theorem first_peer_no_reset_witness :
    (onSignal 1 ⟨MsgType.offer, 9, 2⟩
        { baseState with disconnectTimeoutPending := true }).2
      = [HAction.dispatched MsgType.offer] ∧
    (onSignal 1 ⟨MsgType.offer, 9, 2⟩
        { baseState with disconnectTimeoutPending := true }).1.remotePeerId = some 2 ∧
    (onSignal 1 ⟨MsgType.offer, 9, 2⟩
        { baseState with disconnectTimeoutPending := true }).1.disconnectTimeoutPending
      = false :=
  first_peer_no_reset 1 ⟨MsgType.offer, 9, 2⟩
    { baseState with disconnectTimeoutPending := true } (by decide) rfl (Or.inr rfl)

/-- C9: with a local stream holding an audio track `a` and a video
track `v`, `toggleAudio` flips only the enabled flag of `a` and
returns the new value, and `toggleVideo` flips only the enabled flag
of `v` and returns the new value; neither stops or detaches the track
(it stays un-stopped and the local stream is unchanged) and neither
touches the peer connection, so the sender set is unchanged. -/
theorem toggle_spec (st : HookState) (a v : TrackId) (ea ev : Bool)
    (hav : a ≠ v) (hls : st.localStream = some [a, v])
    (hta : lookupTrack st.tracks a = some ⟨TrackKind.audio, ea, false⟩)
    (htv : lookupTrack st.tracks v = some ⟨TrackKind.video, ev, false⟩) :
    ((toggleAudio st).2 = !ea) ∧
    (lookupTrack (toggleAudio st).1.tracks a = some ⟨TrackKind.audio, !ea, false⟩) ∧
    (lookupTrack (toggleAudio st).1.tracks v = some ⟨TrackKind.video, ev, false⟩) ∧
    ((toggleAudio st).1.localStream = st.localStream) ∧
    ((toggleAudio st).1.pc = st.pc) ∧
    ((toggleVideo st).2 = !ev) ∧
    (lookupTrack (toggleVideo st).1.tracks v = some ⟨TrackKind.video, !ev, false⟩) ∧
    (lookupTrack (toggleVideo st).1.tracks a = some ⟨TrackKind.audio, ea, false⟩) ∧
    ((toggleVideo st).1.localStream = st.localStream) ∧
    ((toggleVideo st).1.pc = st.pc) := by
  have hha : (getAudioTracks st.tracks [a, v]).head? = some a := by
    simp [getAudioTracks, kindOf, hta, htv]
  have hhv : (getVideoTracks st.tracks [a, v]).head? = some v := by
    simp [getVideoTracks, kindOf, hta, htv]
  refine ⟨?_, ?_, ?_, ?_, ?_, ?_, ?_, ?_, ?_, ?_⟩
  · simp [toggleAudio, hls, hha, hta]
  · simp [toggleAudio, hls, hha, hta, lookupTrack_updateTrack_self]
  · simp [toggleAudio, hls, hha, hta,
      lookupTrack_updateTrack_ne st.tracks a v _ hav, htv]
  · simp [toggleAudio, hls, hha, hta]
  · simp [toggleAudio, hls, hha, hta]
  · simp [toggleVideo, hls, hhv, htv]
  · simp [toggleVideo, hls, hhv, htv, lookupTrack_updateTrack_self]
  · simp [toggleVideo, hls, hhv, htv,
      lookupTrack_updateTrack_ne st.tracks v a _ (Ne.symm hav), hta]
  · simp [toggleVideo, hls, hhv, htv]
  · simp [toggleVideo, hls, hhv, htv]

/-- A concrete two-track camera session: audio track 0 and video
track 1 attached as the senders of a stable peer connection. -/
def stCamera : HookState :=
  { baseState with
    tracks := [(0, ⟨TrackKind.audio, true, false⟩), (1, ⟨TrackKind.video, true, false⟩)]
    localStream := some [0, 1]
    cameraStream := some [0, 1]
    pc := some { createPeerConnection with senders := [some 0, some 1] } }

/-- Witness for C9 on the concrete camera session: toggling audio
returns `false`, flips only track 0, and leaves the senders alone. -/
theorem toggle_spec_witness :
    ((toggleAudio stCamera).2 = false) ∧
    (lookupTrack (toggleAudio stCamera).1.tracks 0
      = some ⟨TrackKind.audio, false, false⟩) ∧
    ((toggleAudio stCamera).1.pc = stCamera.pc) ∧
    ((toggleVideo stCamera).2 = false) := by
  have h := toggle_spec stCamera 0 1 true true (by decide) rfl rfl rfl
  exact ⟨by simpa using h.1, by simpa using h.2.1, h.2.2.2.2.1, by simpa using h.2.2.2.2.2.1⟩

/-- C6: in a session with an acquired camera stream (audio track `a`
and video track `v` attached as the outgoing senders),
`startScreenShare` substitutes the fresh screen track `sid` into the
video sender, and a following `stopScreenShare` puts the identical
camera video track object `v` back into the video sender; the audio
sender keeps the identical track `a` across both calls. -/
theorem screenShare_roundtrip (st : HookState) (p : PCState) (a v sid : TrackId)
    (ea ev : Bool)
    (hav : a ≠ v) (hsa : sid ≠ a) (hsv : sid ≠ v)
    (hta : lookupTrack st.tracks a = some ⟨TrackKind.audio, ea, false⟩)
    (htv : lookupTrack st.tracks v = some ⟨TrackKind.video, ev, false⟩)
    (hcam : st.cameraStream = some [a, v]) (hls : st.localStream = some [a, v])
    (hpc : st.pc = some p) (hsend : p.senders = [some a, some v]) :
    (startScreenShare sid st).2 = true ∧
    ((startScreenShare sid st).1.pc.map PCState.senders = some [some a, some sid]) ∧
    ((stopScreenShare (startScreenShare sid st).1).pc.map PCState.senders
      = some [some a, some v]) := by
  have e1 : lookupTrack ((sid, screenTrackInfo) :: st.tracks) a
      = some ⟨TrackKind.audio, ea, false⟩ := by
    simp [lookupTrack, hsa, hta]
  have e2 : lookupTrack ((sid, screenTrackInfo) :: st.tracks) v
      = some ⟨TrackKind.video, ev, false⟩ := by
    simp [lookupTrack, hsv, htv]
  have e3 : lookupTrack ((sid, screenTrackInfo) :: st.tracks) sid = some screenTrackInfo := by
    simp [lookupTrack]
  have hks : kindOf ((sid, screenTrackInfo) :: st.tracks) sid = some TrackKind.video := by
    simp [kindOf, lookupTrack, screenTrackInfo]
  have hv1 : (getVideoTracks ((sid, screenTrackInfo) :: st.tracks) [sid]).head? = some sid := by
    simp [getVideoTracks, hks]
  have hrep1 : replaceFirstVideoSender ((sid, screenTrackInfo) :: st.tracks)
      [some a, some v] sid = some [some a, some sid] := by
    have hka : kindOf ((sid, screenTrackInfo) :: st.tracks) a = some TrackKind.audio := by
      simp [kindOf, e1]
    have hkv : kindOf ((sid, screenTrackInfo) :: st.tracks) v = some TrackKind.video := by
      simp [kindOf, e2]
    simp [replaceFirstVideoSender, hka, hkv]
  have hah : (getAudioTracks ((sid, screenTrackInfo) :: st.tracks) [a, v]).head? = some a := by
    simp [getAudioTracks, kindOf, e1, e2]
  have hstart : startScreenShare sid st
      = ({ st with tracks := (sid, screenTrackInfo) :: st.tracks,
                   pc := some { p with senders := [some a, some sid] },
                   localStream := some [sid, a],
                   screenStream := some [sid],
                   isScreenSharing := true }, true) := by
    simp only [startScreenShare, hpc, hcam, hls, hsend, hv1, hrep1, hah]
  have htracks2 : stopTracksList ((sid, screenTrackInfo) :: st.tracks) [sid]
      = (sid, ⟨TrackKind.video, true, true⟩) :: st.tracks := by
    simp [stopTracksList, updateTrack, stopTrack, screenTrackInfo]
  have u1 : lookupTrack ((sid, (⟨TrackKind.video, true, true⟩ : TrackInfo)) :: st.tracks) a
      = some ⟨TrackKind.audio, ea, false⟩ := by
    simp [lookupTrack, hsa, hta]
  have u2 : lookupTrack ((sid, (⟨TrackKind.video, true, true⟩ : TrackInfo)) :: st.tracks) v
      = some ⟨TrackKind.video, ev, false⟩ := by
    simp [lookupTrack, hsv, htv]
  have hv2 : (getVideoTracks
        ((sid, (⟨TrackKind.video, true, true⟩ : TrackInfo)) :: st.tracks) [a, v]).head?
      = some v := by
    simp [getVideoTracks, kindOf, u1, u2]
  have htracks3 : updateTrack
        ((sid, (⟨TrackKind.video, true, true⟩ : TrackInfo)) :: st.tracks) v
        (fun t => { t with enabled := true })
      = (sid, (⟨TrackKind.video, true, true⟩ : TrackInfo))
          :: updateTrack st.tracks v (fun t => { t with enabled := true }) := by
    simp [updateTrack, hsv]
  have w1 : lookupTrack ((sid, (⟨TrackKind.video, true, true⟩ : TrackInfo))
        :: updateTrack st.tracks v (fun t => { t with enabled := true })) a
      = some ⟨TrackKind.audio, ea, false⟩ := by
    rw [lookupTrack]
    simp only [hsa, if_neg (fun h => hsa h)]
    rw [lookupTrack_updateTrack_ne st.tracks v a _ (Ne.symm hav)]
    exact hta
  have w3 : lookupTrack ((sid, (⟨TrackKind.video, true, true⟩ : TrackInfo))
        :: updateTrack st.tracks v (fun t => { t with enabled := true })) sid
      = some ⟨TrackKind.video, true, true⟩ := by
    simp [lookupTrack]
  have hrep2 : replaceFirstVideoSender ((sid, (⟨TrackKind.video, true, true⟩ : TrackInfo))
        :: updateTrack st.tracks v (fun t => { t with enabled := true }))
      [some a, some sid] v = some [some a, some v] := by
    simp [replaceFirstVideoSender, kindOf, w1, w3]
  refine ⟨by rw [hstart], by rw [hstart]; rfl, ?_⟩
  rw [hstart]
  simp only [stopScreenShare, hcam, htracks2, hv2, htracks3, hrep2]
  rfl

/-- Witness for C6 on the concrete camera session `stCamera` (audio
track 0, video track 1) with screen track 2: after start and stop the
video sender again holds track 1 and the audio sender still holds 0. -/
theorem screenShare_roundtrip_witness :
    (startScreenShare 2 stCamera).2 = true ∧
    ((startScreenShare 2 stCamera).1.pc.map PCState.senders = some [some 0, some 2]) ∧
    ((stopScreenShare (startScreenShare 2 stCamera).1).pc.map PCState.senders
      = some [some 0, some 1]) :=
  screenShare_roundtrip stCamera { createPeerConnection with senders := [some 0, some 1] }
    0 1 2 true true (by decide) (by decide) (by decide) rfl rfl rfl rfl rfl rfl

/-- C7: the quality bucket is a pure function of (bitrate, packet
loss, rtt, ICE state), evaluated first-match: `connecting` when the
ICE state is `new` or `checking`; else `excellent` when bitrate >
1000, loss < 1 and rtt < 150; else `good` when bitrate > 500, loss <
3 and rtt < 200; else `fair` when bitrate > 300, loss < 5 and rtt <
300; otherwise `poor` — with (1200, 0.2, 100, connected) excellent,
(600, 2, 180, connected) good, (50, 10, 500, connected) poor, and any
metrics under ICE state `checking` connecting. -/
theorem monitorConnectionQuality_spec :
    (∀ b l r : ℚ, monitorConnectionQuality IceState.new b l r = Quality.connecting ∧
       monitorConnectionQuality IceState.checking b l r = Quality.connecting) ∧
    (∀ (s : IceState) (b l r : ℚ), s ≠ IceState.new → s ≠ IceState.checking →
       ((b > 1000 ∧ l < 1 ∧ r < 150) →
          monitorConnectionQuality s b l r = Quality.excellent) ∧
       (¬ (b > 1000 ∧ l < 1 ∧ r < 150) → (b > 500 ∧ l < 3 ∧ r < 200) →
          monitorConnectionQuality s b l r = Quality.good) ∧
       (¬ (b > 1000 ∧ l < 1 ∧ r < 150) → ¬ (b > 500 ∧ l < 3 ∧ r < 200) →
          (b > 300 ∧ l < 5 ∧ r < 300) →
          monitorConnectionQuality s b l r = Quality.fair) ∧
       (¬ (b > 1000 ∧ l < 1 ∧ r < 150) → ¬ (b > 500 ∧ l < 3 ∧ r < 200) →
          ¬ (b > 300 ∧ l < 5 ∧ r < 300) →
          monitorConnectionQuality s b l r = Quality.poor)) ∧
    monitorConnectionQuality IceState.connected 1200 (1 / 5) 100 = Quality.excellent ∧
    monitorConnectionQuality IceState.connected 600 2 180 = Quality.good ∧
    monitorConnectionQuality IceState.connected 50 10 500 = Quality.poor := by
  refine ⟨?_, ?_, ?_, ?_, ?_⟩
  · intro b l r
    constructor <;> simp [monitorConnectionQuality]
  · intro s b l r hn hc
    have hs : ¬ (s = IceState.checking ∨ s = IceState.new) := by
      rintro (h | h) <;> [exact hc h; exact hn h]
    refine ⟨?_, ?_, ?_, ?_⟩
    · intro h1
      simp [monitorConnectionQuality, hs, h1]
    · intro h1 h2
      simp [monitorConnectionQuality, hs, h1, h2]
    · intro h1 h2 h3
      simp [monitorConnectionQuality, hs, h1, h2, h3]
    · intro h1 h2 h3
      simp [monitorConnectionQuality, hs, h1, h2, h3]
  · norm_num [monitorConnectionQuality]
    rintro (h | h) <;> simp at h
  · norm_num [monitorConnectionQuality]
    rintro (h | h) <;> simp at h
  · norm_num [monitorConnectionQuality]
    rintro (h | h) <;> simp at h

/-- Witness for C7: the first-match rules applied at concrete
metrics, including the `checking` override. -/
theorem monitorConnectionQuality_spec_witness :
    monitorConnectionQuality IceState.checking 1200 0 100 = Quality.connecting ∧
    monitorConnectionQuality IceState.connected 400 4 250 = Quality.fair := by
  constructor
  · exact (monitorConnectionQuality_spec.1 1200 0 100).2
  · refine (monitorConnectionQuality_spec.2.1 IceState.connected 400 4 250
      (by decide) (by decide)).2.2.1 ?_ ?_ ?_ <;> norm_num

/-- Concrete state for the C8 counterexample: a pending peer-eviction
disconnect timer and one buffered ICE candidate. -/
def stDirty : HookState :=
  { baseState with disconnectTimeoutPending := true, pendingCandidates := [7] }

/-- Counterexample to C8 as stated: after `cleanup` on a state with a
pending peer-eviction disconnect timer and a buffered ICE candidate,
the disconnect timer is still pending and the pending ICE candidate
queue still holds the candidate — `cleanup` touches neither. -/
theorem cleanup_counterexample :
    (cleanup stDirty).disconnectTimeoutPending = true ∧
    (cleanup stDirty).pendingCandidates = [7] ∧
    ¬ ((cleanup stDirty).disconnectTimeoutPending = false ∧
       (cleanup stDirty).pendingCandidates = []) := by
  refine ⟨rfl, rfl, ?_⟩
  rintro ⟨h, -⟩
  simp [cleanup, stDirty, baseState] at h

/-- C8 (amended): `cleanup` can be invoked in any state; it cancels
the reconnect timer and the stats interval, resets the reconnect
counter, stops every screen, camera and local track, closes the peer
connection, unsubscribes the signaling channel, clears the remote
media bookkeeping and marks the session closed — but it does not
cancel a pending peer-eviction disconnect timer, does not clear the
pending ICE candidate queue, and does not forget the tracked remote
peer id. -/
theorem cleanup_spec (st : HookState) :
    (cleanup st).reconnectTimeoutPending = false ∧
    (cleanup st).reconnectAttempts = 0 ∧
    (cleanup st).statsIntervalActive = false ∧
    (cleanup st).screenStream = none ∧
    (cleanup st).cameraStream = none ∧
    (cleanup st).localStream = none ∧
    (cleanup st).pc = none ∧
    (cleanup st).channelOpen = false ∧
    (cleanup st).remoteStreamSet = false ∧
    (cleanup st).receivedTracks = [] ∧
    (cleanup st).connectionState = ConnState.closed ∧
    (∀ i : TrackId,
       i ∈ idsOfOpt st.screenStream ++ idsOfOpt st.cameraStream ++ idsOfOpt st.localStream →
       stoppedAt (cleanup st).tracks i = true) ∧
    (cleanup st).disconnectTimeoutPending = st.disconnectTimeoutPending ∧
    (cleanup st).pendingCandidates = st.pendingCandidates ∧
    (cleanup st).remotePeerId = st.remotePeerId := by
  refine ⟨rfl, rfl, rfl, rfl, rfl, rfl, rfl, rfl, rfl, rfl, rfl, ?_, rfl, rfl, rfl⟩
  intro i hi
  have hstop : ∀ (s : Option (List TrackId)) (ts : TrackStore),
      stoppedAt ts i = true → stoppedAt (stopStreamTracks ts s) i = true := by
    intro s ts h
    cases s with
    | none => exact h
    | some ids => exact stoppedAt_stopTracksList_mono ids ts i h
  have hstopMem : ∀ (s : Option (List TrackId)) (ts : TrackStore),
      i ∈ idsOfOpt s → stoppedAt (stopStreamTracks ts s) i = true := by
    intro s ts h
    cases s with
    | none => simp [idsOfOpt] at h
    | some ids => exact stoppedAt_stopTracksList_mem ids ts i (by simpa [idsOfOpt] using h)
  rcases List.mem_append.mp hi with hi' | hloc
  · rcases List.mem_append.mp hi' with hscr | hcam
    · show stoppedAt (stopStreamTracks (stopStreamTracks
        (stopStreamTracks st.tracks st.screenStream) st.cameraStream) st.localStream) i = true
      exact hstop _ _ (hstop _ _ (hstopMem _ _ hscr))
    · show stoppedAt (stopStreamTracks (stopStreamTracks
        (stopStreamTracks st.tracks st.screenStream) st.cameraStream) st.localStream) i = true
      exact hstop _ _ (hstopMem _ _ hcam)
  · show stoppedAt (stopStreamTracks (stopStreamTracks
      (stopStreamTracks st.tracks st.screenStream) st.cameraStream) st.localStream) i = true
    exact hstopMem _ _ hloc

/-- Witness for the amended C8 on a camera session: after `cleanup`
the stats interval and reconnect timer are off, the camera tracks are
stopped, and the buffered candidate of `stDirty` survives unchanged. -/
theorem cleanup_spec_witness :
    (cleanup stCamera).statsIntervalActive = false ∧
    stoppedAt (cleanup stCamera).tracks 0 = true ∧
    stoppedAt (cleanup stCamera).tracks 1 = true ∧
    (cleanup stDirty).pendingCandidates = stDirty.pendingCandidates := by
  refine ⟨(cleanup_spec stCamera).2.2.1, ?_, ?_, (cleanup_spec stDirty).2.2.2.2.2.2.2.2.2.2.2.2.2.1⟩
  · exact (cleanup_spec stCamera).2.2.2.2.2.2.2.2.2.2.2.1 0 (by decide)
  · exact (cleanup_spec stCamera).2.2.2.2.2.2.2.2.2.2.2.1 1 (by decide)

end WebRTC
